import Mathlib

/-!
Verification development for the WPS text extractor
(src/wps_final_extractor.py). The Python source is shallowly embedded:
Python strings become lists of characters, byte buffers become lists of
natural numbers below 256, and every Python helper of the extractor
becomes a total Lean function of the same name. Regular expression
operations of the source are translated into explicit character level
scans that implement the exact same matching semantics.
-/

set_option maxRecDepth 8192

/-- Character codes of the Unicode whitespace set matched by the Python
regex class for whitespace and by str.isspace: 0x09 to 0x0D, 0x1C to
0x1F, space, 0x85, 0xA0, 0x1680, 0x2000 to 0x200A, 0x2028, 0x2029,
0x202F, 0x205F and 0x3000. -/
def isSpaceChar (c : Char) : Bool :=
  let n := c.toNat
  (0x09 ≤ n && n ≤ 0x0D) || (0x1C ≤ n && n ≤ 0x1F) || n == 0x20 ||
  n == 0x85 || n == 0xA0 || n == 0x1680 ||
  (0x2000 ≤ n && n ≤ 0x200A) || n == 0x2028 || n == 0x2029 ||
  n == 0x202F || n == 0x205F || n == 0x3000

/-- Character in the CJK ideograph range U+4E00 to U+9FFF, the range used
by every CJK regex class of the source. -/
def isCJKChar (c : Char) : Bool :=
  0x4E00 ≤ c.toNat && c.toNat ≤ 0x9FFF

/-- Model of Python str.isprintable over the character ranges this
pipeline handles: control characters (Cc), the common separator
characters (Zs, Zl, Zp) other than the ASCII space, and the common
format characters (Cf) are not printable. The full Unicode category
table is not reproduced; this model agrees with Python on every
character that the embedded pipeline produces or that the theorems
below evaluate. -/
def isPrintableChar (c : Char) : Bool :=
  let n := c.toNat
  !(n < 0x20 || n == 0x7F || (0x80 ≤ n && n ≤ 0x9F) ||
    n == 0xA0 || n == 0xAD || n == 0x61C || n == 0x1680 ||
    (0x2000 ≤ n && n ≤ 0x200F) || (0x2028 ≤ n && n ≤ 0x202E) ||
    n == 0x202F || (0x205F ≤ n && n ≤ 0x206F) ||
    n == 0x3000 || n == 0xFEFF || (0xFFF9 ≤ n && n ≤ 0xFFFB))

/-- Python str.strip with no argument: remove leading and trailing
whitespace characters. -/
def stripPy (l : List Char) : List Char :=
  ((l.dropWhile isSpaceChar).reverse.dropWhile isSpaceChar).reverse

theorem dropWhileLen (p : Char → Bool) (l : List Char) :
    (l.dropWhile p).length ≤ l.length := by
  induction l with
  | nil => simp [List.dropWhile]
  | cons a t ih =>
    rw [List.dropWhile_cons]
    by_cases h : p a = true
    · rw [if_pos h]
      simp only [List.length_cons]
      omega
    · rw [if_neg h]

/-- Python re.split on a character class with a plus quantifier: split on
every maximal run of characters satisfying p, keeping empty pieces at the
borders exactly as Python does. -/
def splitRunsF (p : Char → Bool) (fuel : Nat) (l : List Char) : List (List Char) :=
  match fuel with
  | 0 => [[]]
  | fuel + 1 =>
    match l with
    | [] => [[]]
    | c :: rest =>
      if p c then [] :: splitRunsF p fuel (rest.dropWhile p)
      else
        match splitRunsF p fuel rest with
        | [] => [[c]]
        | s :: ss => (c :: s) :: ss

/-- Wrapper of splitRunsF with sufficient fuel: every recursive step of
the scan consumes at least one character, so length plus one steps
always finish the scan. The fuel makes the recursion structural, so the
kernel can evaluate it. -/
def splitRuns (p : Char → Bool) (l : List Char) : List (List Char) :=
  splitRunsF p (l.length + 1) l

/-- Python re.split on a bare character class: every single separator
character is one split point. -/
def splitSingle (p : Char → Bool) (l : List Char) : List (List Char) :=
  match l with
  | [] => [[]]
  | c :: rest =>
    if p c then [] :: splitSingle p rest
    else
      match splitSingle p rest with
      | [] => [[c]]
      | s :: ss => (c :: s) :: ss

/-- Python re.sub of a character class with a plus quantifier by a single
replacement character: every maximal run of characters satisfying p
becomes one copy of rep. -/
def replaceRuns1F (p : Char → Bool) (rep : Char) (fuel : Nat) (l : List Char) : List Char :=
  match fuel with
  | 0 => []
  | fuel + 1 =>
    match l with
    | [] => []
    | c :: rest =>
      if p c then rep :: replaceRuns1F p rep fuel (rest.dropWhile p)
      else c :: replaceRuns1F p rep fuel rest

/-- Wrapper of replaceRuns1F with sufficient fuel (see splitRuns). -/
def replaceRuns1 (p : Char → Bool) (rep : Char) (l : List Char) : List Char :=
  replaceRuns1F p rep (l.length + 1) l

/-- Python re.sub of a character class with a two-or-more quantifier by a
single replacement character: every run of length at least two becomes
one copy of rep, while an isolated class character is kept. -/
def replaceRuns2F (p : Char → Bool) (rep : Char) (fuel : Nat) (l : List Char) : List Char :=
  match fuel with
  | 0 => []
  | fuel + 1 =>
    match l with
    | [] => []
    | [c] => [c]
    | c :: d :: rest =>
      if p c then
        if p d then rep :: replaceRuns2F p rep fuel ((d :: rest).dropWhile p)
        else c :: replaceRuns2F p rep fuel (d :: rest)
      else c :: replaceRuns2F p rep fuel (d :: rest)

/-- Wrapper of replaceRuns2F with sufficient fuel (see splitRuns). -/
def replaceRuns2 (p : Char → Bool) (rep : Char) (l : List Char) : List Char :=
  replaceRuns2F p rep (l.length + 1) l

/-- Python str.join generalized to character lists. -/
def joinSep (sep : List Char) (l : List (List Char)) : List Char :=
  match l with
  | [] => []
  | [x] => x
  | x :: y :: ys => x ++ sep ++ joinSep sep (y :: ys)

/-- Decidable prefix test on character lists. -/
def isPrefixOfL (needle hay : List Char) : Bool :=
  match needle, hay with
  | [], _ => true
  | _ :: _, [] => false
  | a :: ns, b :: hs => a == b && isPrefixOfL ns hs

/-- Decidable substring test on character lists, the semantics of Python
re.search applied to a plain literal pattern. -/
def isInfixOfL (needle hay : List Char) : Bool :=
  isPrefixOfL needle hay ||
  match hay with
  | [] => false
  | _ :: rest => isInfixOfL needle rest

/-- Existence of two adjacent characters both satisfying p, the semantics
of re.search for a character class with a two-or-more quantifier. -/
def hasAdjPair (p : Char → Bool) (l : List Char) : Bool :=
  match l with
  | a :: b :: rest => (p a && p b) || hasAdjPair p (b :: rest)
  | _ => false

/-- Pairs of bytes combined into little endian 16 bit code units; a
trailing odd byte is dropped, exactly as the Python utf-16le codec with
errors ignored does. -/
def utf16Units (bs : List Nat) : List Nat :=
  match bs with
  | b0 :: b1 :: rest => (b0 % 256 + 256 * (b1 % 256)) :: utf16Units rest
  | _ => []

/-- Code units turned into characters: a high and low surrogate pair is
combined, a lone surrogate is dropped (the ignore error handler), every
other unit is a character of its own value. -/
def utf16CharsF (fuel : Nat) (us : List Nat) : List Char :=
  match fuel with
  | 0 => []
  | fuel + 1 =>
    match us with
    | [] => []
    | u :: rest =>
      if 0xD800 ≤ u ∧ u ≤ 0xDBFF then
        match rest with
        | [] => []
        | v :: rest2 =>
          if 0xDC00 ≤ v ∧ v ≤ 0xDFFF then
            Char.ofNat (0x10000 + (u - 0xD800) * 0x400 + (v - 0xDC00)) :: utf16CharsF fuel rest2
          else utf16CharsF fuel (v :: rest2)
      else if 0xDC00 ≤ u ∧ u ≤ 0xDFFF then utf16CharsF fuel rest
      else Char.ofNat u :: utf16CharsF fuel rest

/-- Wrapper of utf16CharsF with sufficient fuel (see splitRuns). -/
def utf16Chars (us : List Nat) : List Char :=
  utf16CharsF (us.length + 1) us

/-- Python bytes.decode with the utf-16le codec and errors ignored. -/
def decodeUtf16le (bs : List Nat) : List Char :=
  utf16Chars (utf16Units bs)

/-- Valid utf-8 continuation byte. -/
def isUtf8Cont (b : Nat) : Bool := 0x80 ≤ b && b ≤ 0xBF

/-- Valid range of the second byte of a multi byte utf-8 sequence, which
depends on the lead byte (overlong forms, surrogates and values above
U+10FFFF are rejected, as in the Python codec). -/
def utf8SecondOk (b c1 : Nat) : Bool :=
  if b == 0xE0 then 0xA0 ≤ c1 && c1 ≤ 0xBF
  else if b == 0xED then 0x80 ≤ c1 && c1 ≤ 0x9F
  else if b == 0xF0 then 0x90 ≤ c1 && c1 ≤ 0xBF
  else if b == 0xF4 then 0x80 ≤ c1 && c1 ≤ 0x8F
  else isUtf8Cont c1

/-- Python bytes.decode with the utf-8 codec and errors ignored: an
invalid sequence is silently dropped, consuming its maximal valid
subpart, and decoding resumes at the first offending byte. -/
def decodeUtf8F (fuel : Nat) (bs : List Nat) : List Char :=
  match fuel with
  | 0 => []
  | fuel + 1 =>
   match bs with
  | [] => []
  | b :: rest =>
    if b < 0x80 then Char.ofNat b :: decodeUtf8F fuel rest
    else if 0xC2 ≤ b ∧ b ≤ 0xDF then
      match rest with
      | [] => []
      | c1 :: rest1 =>
        if isUtf8Cont c1 then
          Char.ofNat ((b - 0xC0) * 0x40 + (c1 - 0x80)) :: decodeUtf8F fuel rest1
        else decodeUtf8F fuel (c1 :: rest1)
    else if 0xE0 ≤ b ∧ b ≤ 0xEF then
      match rest with
      | [] => []
      | c1 :: rest1 =>
        if utf8SecondOk b c1 then
          match rest1 with
          | [] => []
          | c2 :: rest2 =>
            if isUtf8Cont c2 then
              Char.ofNat ((b - 0xE0) * 0x1000 + (c1 - 0x80) * 0x40 + (c2 - 0x80)) :: decodeUtf8F fuel rest2
            else decodeUtf8F fuel (c2 :: rest2)
        else decodeUtf8F fuel (c1 :: rest1)
    else if 0xF0 ≤ b ∧ b ≤ 0xF4 then
      match rest with
      | [] => []
      | c1 :: rest1 =>
        if utf8SecondOk b c1 then
          match rest1 with
          | [] => []
          | c2 :: rest2 =>
            if isUtf8Cont c2 then
              match rest2 with
              | [] => []
              | c3 :: rest3 =>
                if isUtf8Cont c3 then
                  Char.ofNat ((b - 0xF0) * 0x40000 + (c1 - 0x80) * 0x1000 +
                    (c2 - 0x80) * 0x40 + (c3 - 0x80)) :: decodeUtf8F fuel rest3
                else decodeUtf8F fuel (c3 :: rest3)
            else decodeUtf8F fuel (c2 :: rest2)
        else decodeUtf8F fuel (c1 :: rest1)
    else decodeUtf8F fuel rest

/-- Wrapper of decodeUtf8F with sufficient fuel (see splitRuns). -/
def decodeUtf8 (bs : List Nat) : List Char :=
  decodeUtf8F (bs.length + 1) bs

/-- Modelled from the spec: a decoder that replaces every undecodable
byte sequence with a loss marker, following the spec sentence that
undecodable byte sequences are replaced with loss markers. It differs
from decodeUtf8 (the embedding of the source, which uses the ignore
error handler) only in emitting U+FFFD where decodeUtf8 drops bytes. -/
def decodeUtf8ReplaceF (fuel : Nat) (bs : List Nat) : List Char :=
  match fuel with
  | 0 => []
  | fuel + 1 =>
   match bs with
  | [] => []
  | b :: rest =>
    if b < 0x80 then Char.ofNat b :: decodeUtf8ReplaceF fuel rest
    else if 0xC2 ≤ b ∧ b ≤ 0xDF then
      match rest with
      | [] => [Char.ofNat 0xFFFD]
      | c1 :: rest1 =>
        if isUtf8Cont c1 then
          Char.ofNat ((b - 0xC0) * 0x40 + (c1 - 0x80)) :: decodeUtf8ReplaceF fuel rest1
        else Char.ofNat 0xFFFD :: decodeUtf8ReplaceF fuel (c1 :: rest1)
    else if 0xE0 ≤ b ∧ b ≤ 0xEF then
      match rest with
      | [] => [Char.ofNat 0xFFFD]
      | c1 :: rest1 =>
        if utf8SecondOk b c1 then
          match rest1 with
          | [] => [Char.ofNat 0xFFFD]
          | c2 :: rest2 =>
            if isUtf8Cont c2 then
              Char.ofNat ((b - 0xE0) * 0x1000 + (c1 - 0x80) * 0x40 + (c2 - 0x80)) :: decodeUtf8ReplaceF fuel rest2
            else Char.ofNat 0xFFFD :: decodeUtf8ReplaceF fuel (c2 :: rest2)
        else Char.ofNat 0xFFFD :: decodeUtf8ReplaceF fuel (c1 :: rest1)
    else if 0xF0 ≤ b ∧ b ≤ 0xF4 then
      match rest with
      | [] => [Char.ofNat 0xFFFD]
      | c1 :: rest1 =>
        if utf8SecondOk b c1 then
          match rest1 with
          | [] => [Char.ofNat 0xFFFD]
          | c2 :: rest2 =>
            if isUtf8Cont c2 then
              match rest2 with
              | [] => [Char.ofNat 0xFFFD]
              | c3 :: rest3 =>
                if isUtf8Cont c3 then
                  Char.ofNat ((b - 0xF0) * 0x40000 + (c1 - 0x80) * 0x1000 +
                    (c2 - 0x80) * 0x40 + (c3 - 0x80)) :: decodeUtf8ReplaceF fuel rest3
                else Char.ofNat 0xFFFD :: decodeUtf8ReplaceF fuel (c3 :: rest3)
            else Char.ofNat 0xFFFD :: decodeUtf8ReplaceF fuel (c2 :: rest2)
        else Char.ofNat 0xFFFD :: decodeUtf8ReplaceF fuel (c1 :: rest1)
    else Char.ofNat 0xFFFD :: decodeUtf8ReplaceF fuel rest

/-- Wrapper of decodeUtf8ReplaceF with sufficient fuel (see splitRuns). -/
def decodeUtf8Replace (bs : List Nat) : List Char :=
  decodeUtf8ReplaceF (bs.length + 1) bs

/-- Modelled from the spec: the two byte code table of the legacy East
Asian encoding (the gbk codec of the Python standard library) is an
external codec table that is not part of the repository. This model maps
every structurally valid two byte code to the replacement character
U+FFFD. No theorem in this file depends on any value of this table; the
theorems only evaluate the gbk decoder on single byte (ASCII range)
input, where the codec is the identity. -/
def gbkPair (_lead _trail : Nat) : Char := Char.ofNat 0xFFFD

/-- Python bytes.decode with the gbk codec and errors ignored: bytes up
to 0x7F decode as themselves, a lead byte in 0x81 to 0xFE followed by a
trail byte in 0x40 to 0xFE other than 0x7F forms a two byte code, and
any other byte is dropped with decoding resuming at the next byte. -/
def decodeGbkF (fuel : Nat) (bs : List Nat) : List Char :=
  match fuel with
  | 0 => []
  | fuel + 1 =>
    match bs with
    | [] => []
    | b :: rest =>
      if b ≤ 0x7F then Char.ofNat b :: decodeGbkF fuel rest
      else if 0x81 ≤ b ∧ b ≤ 0xFE then
        match rest with
        | [] => []
        | t :: rest1 =>
          if (0x40 ≤ t && t ≤ 0xFE) && t != 0x7F then gbkPair b t :: decodeGbkF fuel rest1
          else decodeGbkF fuel (t :: rest1)
      else decodeGbkF fuel rest

/-- Wrapper of decodeGbkF with sufficient fuel (see splitRuns). -/
def decodeGbk (bs : List Nat) : List Char :=
  decodeGbkF (bs.length + 1) bs

/-- Count of CJK ideographs in a text, the length of
re.findall of the CJK class in the source. -/
def cjkCount (l : List Char) : Nat := l.countP isCJKChar

/-- Count of non whitespace characters, the length of the text after
re.sub of the whitespace class by the empty string in the source. -/
def nonWsCount (l : List Char) : Nat := l.countP (fun c => !isSpaceChar c)

/-- The fixed noise symbol set of the garbled detector: backtick,
backslash, slash, underscore, angle brackets, braces, pipe and tilde
(character codes 0x60, 0x5C, 0x2F, 0x5F, 0x3C, 0x3E, 0x7B, 0x7D, 0x7C,
0x7E). -/
def isNoiseChar (c : Char) : Bool :=
  let n := c.toNat
  n == 0x60 || n == 0x5C || n == 0x2F || n == 0x5F || n == 0x3C ||
  n == 0x3E || n == 0x7B || n == 0x7D || n == 0x7C || n == 0x7E

/-- Count of noise symbols, the special character count of the source. -/
def noiseCount (l : List Char) : Nat := l.countP isNoiseChar

/-- Python regex digit class: any Unicode decimal digit (category Nd),
not only the ASCII digits. The complete range table of the Unicode
database of the runtime is reproduced (62 ranges, 660 code points);
fullwidth digits such as U+FF10 are included, which matters because the
cleaner keep-set 0xFF00 to 0xFFEF passes them through to the garbled
detector. -/
def isDigitPy (c : Char) : Bool :=
  let n := c.toNat
  (0x30 ≤ n && n ≤ 0x39) ||
  (0x660 ≤ n && n ≤ 0x669) || (0x6F0 ≤ n && n ≤ 0x6F9) ||
  (0x7C0 ≤ n && n ≤ 0x7C9) || (0x966 ≤ n && n ≤ 0x96F) ||
  (0x9E6 ≤ n && n ≤ 0x9EF) || (0xA66 ≤ n && n ≤ 0xA6F) ||
  (0xAE6 ≤ n && n ≤ 0xAEF) || (0xB66 ≤ n && n ≤ 0xB6F) ||
  (0xBE6 ≤ n && n ≤ 0xBEF) || (0xC66 ≤ n && n ≤ 0xC6F) ||
  (0xCE6 ≤ n && n ≤ 0xCEF) || (0xD66 ≤ n && n ≤ 0xD6F) ||
  (0xDE6 ≤ n && n ≤ 0xDEF) || (0xE50 ≤ n && n ≤ 0xE59) ||
  (0xED0 ≤ n && n ≤ 0xED9) || (0xF20 ≤ n && n ≤ 0xF29) ||
  (0x1040 ≤ n && n ≤ 0x1049) || (0x1090 ≤ n && n ≤ 0x1099) ||
  (0x17E0 ≤ n && n ≤ 0x17E9) || (0x1810 ≤ n && n ≤ 0x1819) ||
  (0x1946 ≤ n && n ≤ 0x194F) || (0x19D0 ≤ n && n ≤ 0x19D9) ||
  (0x1A80 ≤ n && n ≤ 0x1A89) || (0x1A90 ≤ n && n ≤ 0x1A99) ||
  (0x1B50 ≤ n && n ≤ 0x1B59) || (0x1BB0 ≤ n && n ≤ 0x1BB9) ||
  (0x1C40 ≤ n && n ≤ 0x1C49) || (0x1C50 ≤ n && n ≤ 0x1C59) ||
  (0xA620 ≤ n && n ≤ 0xA629) || (0xA8D0 ≤ n && n ≤ 0xA8D9) ||
  (0xA900 ≤ n && n ≤ 0xA909) || (0xA9D0 ≤ n && n ≤ 0xA9D9) ||
  (0xA9F0 ≤ n && n ≤ 0xA9F9) || (0xAA50 ≤ n && n ≤ 0xAA59) ||
  (0xABF0 ≤ n && n ≤ 0xABF9) || (0xFF10 ≤ n && n ≤ 0xFF19) ||
  (0x104A0 ≤ n && n ≤ 0x104A9) || (0x10D30 ≤ n && n ≤ 0x10D39) ||
  (0x11066 ≤ n && n ≤ 0x1106F) || (0x110F0 ≤ n && n ≤ 0x110F9) ||
  (0x11136 ≤ n && n ≤ 0x1113F) || (0x111D0 ≤ n && n ≤ 0x111D9) ||
  (0x112F0 ≤ n && n ≤ 0x112F9) || (0x11450 ≤ n && n ≤ 0x11459) ||
  (0x114D0 ≤ n && n ≤ 0x114D9) || (0x11650 ≤ n && n ≤ 0x11659) ||
  (0x116C0 ≤ n && n ≤ 0x116C9) || (0x11730 ≤ n && n ≤ 0x11739) ||
  (0x118E0 ≤ n && n ≤ 0x118E9) || (0x11950 ≤ n && n ≤ 0x11959) ||
  (0x11C50 ≤ n && n ≤ 0x11C59) || (0x11D50 ≤ n && n ≤ 0x11D59) ||
  (0x11DA0 ≤ n && n ≤ 0x11DA9) || (0x16A60 ≤ n && n ≤ 0x16A69) ||
  (0x16AC0 ≤ n && n ≤ 0x16AC9) || (0x16B50 ≤ n && n ≤ 0x16B59) ||
  (0x1D7CE ≤ n && n ≤ 0x1D7FF) || (0x1E140 ≤ n && n ≤ 0x1E149) ||
  (0x1E2F0 ≤ n && n ≤ 0x1E2F9) || (0x1E950 ≤ n && n ≤ 0x1E959) ||
  (0x1FBF0 ≤ n && n ≤ 0x1FBF9)

/-- First corruption signature of the source: at least two ASCII
letters, then at least one Unicode decimal digit, then at least two
ASCII letters, contiguously. A match of the regex exists exactly when
some suffix starts with letter, letter, a maximal digit run, letter,
letter. -/
def garbledPatOne (l : List Char) : Bool :=
  match l with
  | a :: b :: rest =>
    (a.isAlpha && b.isAlpha &&
      (match rest with
       | d :: _ =>
         isDigitPy d &&
         (match rest.dropWhile isDigitPy with
          | e :: f :: _ => e.isAlpha && f.isAlpha
          | _ => false)
       | [] => false)) ||
    garbledPatOne (b :: rest)
  | _ => false

/-- Third corruption signature of the source: a CJK ideograph, one ASCII
letter, a CJK ideograph and one ASCII letter, contiguously. -/
def garbledPatThree (l : List Char) : Bool :=
  match l with
  | a :: b :: c :: d :: rest =>
    (isCJKChar a && b.isAlpha && isCJKChar c && d.isAlpha) ||
    garbledPatThree (b :: c :: d :: rest)
  | _ => false

/-- The fixed blocklist of known mis-decoded glyphs of the source. -/
def blocklistChars : List Char :=
  "剉諲鴙蛻颯錘廱銐恎購汵蟢蛓筫誰龕陙馷俌済烻薡鵞坃亯擽揯筟鯪魐鬴昢觺刧".data

/-- Membership of any character of the text in the blocklist, the last
corruption signature of the source. -/
def hasBlocklistChar (l : List Char) : Bool :=
  l.any (fun c => blocklistChars.contains c)

/-- Embedding of _is_garbled_text of the source. The float comparison
chinese_ratio below 0.4 of the source is modeled as the exact rational
comparison chinese times five below total times two, which agrees with
the IEEE double comparison of the source for every count below the
exact double range (far beyond any reachable text length). -/
def _is_garbled_text (t : List Char) : Bool :=
  if t.length < 3 then true
  else if nonWsCount t = 0 then true
  else if cjkCount t * 5 < nonWsCount t * 2 then true
  else if 3 < noiseCount t then true
  else if garbledPatOne t || hasAdjPair isNoiseChar t ||
          garbledPatThree t || hasBlocklistChar t then true
  else false

/-- Character class of the first anchored metadata pattern of the
source: digits and the listed ASCII symbols. -/
def isSymClassOne (c : Char) : Bool :=
  let n := c.toNat
  c.isDigit ||
  n == 0x40 || n == 0x23 || n == 0x24 || n == 0x25 || n == 0x5E ||
  n == 0x26 || n == 0x2A || n == 0x28 || n == 0x29 || n == 0x5F ||
  n == 0x2B || n == 0x3D || n == 0x5B || n == 0x5D || n == 0x7B ||
  n == 0x7D || n == 0x7C || n == 0x5C || n == 0x3A || n == 0x22 ||
  n == 0x3B || n == 0x27 || n == 0x3C || n == 0x3E || n == 0x3F ||
  n == 0x2C || n == 0x2E || n == 0x2F || n == 0x60 || n == 0x7E ||
  n == 0x2D

/-- Character class of the second anchored metadata pattern of the
source: ASCII letters in addition to the first class. -/
def isSymClassTwo (c : Char) : Bool :=
  c.isAlpha || isSymClassOne c

/-- Scan for the next needle of a regex dot-star gap: the needle must be
found before any newline character, since the regex dot does not match a
newline. Returns the remainder after the needle on success. -/
def gapFindF (needle : List Char) (fuel : Nat) (s : List Char) : Option (List Char) :=
  match fuel with
  | 0 => none
  | fuel + 1 =>
    if isPrefixOfL needle s then some (s.drop needle.length)
    else
      match s with
      | [] => none
      | c :: rest => if c.toNat == 0x0A then none else gapFindF needle fuel rest

/-- Wrapper of gapFindF with sufficient fuel (see splitRuns). -/
def gapFind (needle : List Char) (s : List Char) : Option (List Char) :=
  gapFindF needle (s.length + 1) s

/-- Chained dot-star gaps: every needle in turn must be found with no
newline inside the gaps. -/
def chainNoNL (needles : List (List Char)) (s : List Char) : Bool :=
  match needles with
  | [] => true
  | n :: more =>
    match gapFind n s with
    | some r => chainNoNL more r
    | none => false

/-- Python re.search of a pattern of literals joined by dot-star: the
first literal may start anywhere, the later literals must follow with no
newline in between. -/
def searchSeqF (first : List Char) (needles : List (List Char)) (fuel : Nat)
    (s : List Char) : Bool :=
  match fuel with
  | 0 => false
  | fuel + 1 =>
    (if isPrefixOfL first s then chainNoNL needles (s.drop first.length) else false) ||
    match s with
    | [] => false
    | _ :: rest => searchSeqF first needles fuel rest

/-- Wrapper of searchSeqF with sufficient fuel (see splitRuns). -/
def searchSeq (first : List Char) (needles : List (List Char)) (s : List Char) : Bool :=
  searchSeqF first needles (s.length + 1) s

/-- Embedding of _is_metadata of the source: the case insensitive
pattern list, in order. Literal patterns become case insensitive
substring tests on the ASCII lowered text; the two dot-star patterns
become chained no-newline scans; the two anchored patterns require the
whole text, after stripping surrounding whitespace, to consist of class
characters only (of length one to three for the second one). -/
def _is_metadata (t : List Char) : Bool :=
  isInfixOfL "cjojpjqj".data (t.map Char.toLower) ||
  isInfixOfL "root entry".data (t.map Char.toLower) ||
  isInfixOfL "summaryinformation".data (t.map Char.toLower) ||
  isInfixOfL "documentsummaryinformation".data (t.map Char.toLower) ||
  isInfixOfL "ksoproductbuildver".data (t.map Char.toLower) ||
  isInfixOfL "times new roman".data (t.map Char.toLower) ||
  isInfixOfL "calibri".data (t.map Char.toLower) ||
  isInfixOfL "arial".data (t.map Char.toLower) ||
  isInfixOfL "courier new".data (t.map Char.toLower) ||
  searchSeq "html".data ["代码".data] (t.map Char.toLower) ||
  searchSeq "mh".data ["sh".data, "nhth".data] (t.map Char.toLower) ||
  (!(stripPy t).isEmpty && (stripPy t).all isSymClassOne) ||
  (!(stripPy t).isEmpty && (stripPy t).length ≤ 3 && (stripPy t).all isSymClassTwo)

/-- ASCII control character of code 0x00 to 0x1F, the paragraph
separator class of the source. -/
def isCtlChar (c : Char) : Bool := c.toNat ≤ 0x1F

/-- Filtering step of the paragraph loop of _extract_meaningful_text:
keep printable characters plus newline, tab and space. -/
def cleanParagraphOf (p : List Char) : List Char :=
  p.filter (fun c =>
    isPrintableChar c || c.toNat == 0x0A || c.toNat == 0x09 || c.toNat == 0x20)

/-- Body of the paragraph loop of _extract_meaningful_text: strip, drop
short paragraphs, keep printable characters plus newline, tab and space,
drop paragraphs that are whitespace after filtering, drop metadata, keep
paragraphs with a CJK ideograph or a run of two ASCII letters. -/
def meaningfulPara (para : List Char) : Option (List Char) :=
  if (stripPy para).length < 5 then none
  else if stripPy (cleanParagraphOf (stripPy para)) = [] then none
  else if _is_metadata (cleanParagraphOf (stripPy para)) then none
  else if (cleanParagraphOf (stripPy para)).any isCJKChar ||
          hasAdjPair Char.isAlpha (cleanParagraphOf (stripPy para)) then
    some (cleanParagraphOf (stripPy para))
  else none

/-- The surviving paragraphs of a decoded text, in original order. -/
def meaningfulParas (t : List Char) : List (List Char) :=
  (splitRuns isCtlChar t).filterMap meaningfulPara

/-- Embedding of _extract_meaningful_text of the source. -/
def _extract_meaningful_text (t : List Char) : List Char :=
  if t = [] then []
  else if (stripPy t).length < 5 then []
  else joinSep [Char.ofNat 0x0A] (meaningfulParas t)

/-- Embedding of _parse_stream_data of the source: the three decode
attempts run unconditionally in fixed order (utf-16le, utf-8, gbk), each
surviving nonempty filtered text is appended, and the results are joined
with newlines. -/
def _parse_stream_data (data : List Nat) : List Char :=
  let t1 := _extract_meaningful_text (decodeUtf16le data)
  let segs1 : List (List Char) := if t1.isEmpty then [] else [t1]
  let t2 := _extract_meaningful_text (decodeUtf8 data)
  let segs2 := if t2.isEmpty then segs1 else segs1 ++ [t2]
  let t3 := _extract_meaningful_text (decodeGbk data)
  let segs3 := if t3.isEmpty then segs2 else segs2 ++ [t3]
  joinSep [Char.ofNat 0x0A] segs3

/-- Word character of the Python regex word class, modeled over the
ranges this pipeline handles: ASCII letters and digits, the underscore,
CJK ideographs and the fullwidth letters and digits. CJK ideographs are
word characters in the Python regex engine, so a single ASCII letter
between two ideographs has no word boundary around it. -/
def isWordChar (c : Char) : Bool :=
  let n := c.toNat
  c.isAlphanum || n == 0x5F || isCJKChar c ||
  (0xFF10 ≤ n && n ≤ 0xFF19) || (0xFF21 ≤ n && n ≤ 0xFF3A) ||
  (0xFF41 ≤ n && n ≤ 0xFF5A)

/-- Python re.sub of the literal ph333 followed by a greedy whitespace
run by the empty string: the scan is left to right, non overlapping, and
resumes after the consumed whitespace. -/
def removePh333F (fuel : Nat) (l : List Char) : List Char :=
  match fuel with
  | 0 => []
  | fuel + 1 =>
    match l with
    | 'p' :: 'h' :: '3' :: '3' :: '3' :: rest => removePh333F fuel (rest.dropWhile isSpaceChar)
    | c :: rest => c :: removePh333F fuel rest
    | [] => []

/-- Wrapper of removePh333F with sufficient fuel (see splitRuns). -/
def removePh333 (l : List Char) : List Char :=
  removePh333F (l.length + 1) l

/-- Worker of removeSingleLetters carrying the previous character of the
original text, since the regex word boundaries are judged on the
original neighbors, not on the partially rewritten text. -/
def removeSingleLettersGo (prev : Option Char) (l : List Char) : List Char :=
  match l with
  | [] => []
  | c :: rest =>
    let boundaryBefore := match prev with
      | none => true
      | some d => !isWordChar d
    let boundaryAfter := match rest with
      | [] => true
      | d :: _ => !isWordChar d
    if c.isAlpha && boundaryBefore && boundaryAfter then
      removeSingleLettersGo (some c) rest
    else c :: removeSingleLettersGo (some c) rest

/-- Python re.sub of a word bounded single ASCII letter by the empty
string. -/
def removeSingleLetters (l : List Char) : List Char :=
  removeSingleLettersGo none l

/-- Sentence terminal punctuation of the source split: the CJK full
stop, fullwidth exclamation and question marks, and the ASCII period,
exclamation and question marks. -/
def isSentencePunct (c : Char) : Bool :=
  let n := c.toNat
  n == 0x3002 || n == 0xFF01 || n == 0xFF1F || n == 0x2E || n == 0x21 || n == 0x3F

/-- Characters kept by the base cleanup of _clean_text: CJK ideographs,
printable ASCII 0x20 to 0x7E, CJK punctuation 0x3000 to 0x303F, the
fullwidth block 0xFF00 to 0xFFEF, and whitespace. -/
def isCleanKeepChar (c : Char) : Bool :=
  let n := c.toNat
  isCJKChar c || (0x20 ≤ n && n ≤ 0x7E) ||
  (0x3000 ≤ n && n ≤ 0x303F) || (0xFF00 ≤ n && n ≤ 0xFFEF) ||
  isSpaceChar c

/-- Control and format characters removed by the first step of
_clean_text: 0x00 to 0x08, 0x0B, 0x0C, 0x0E to 0x1F and 0x7F to 0x9F. -/
def isCtlRemoveChar (c : Char) : Bool :=
  let n := c.toNat
  n ≤ 0x08 || n == 0x0B || n == 0x0C || (0x0E ≤ n && n ≤ 0x1F) ||
  (0x7F ≤ n && n ≤ 0x9F)

/-- Punctuation class of the final collapse of _clean_text: ASCII
period, comma, exclamation, question, semicolon and colon. -/
def isPunctRunChar (c : Char) : Bool :=
  let n := c.toNat
  n == 0x2E || n == 0x2C || n == 0x21 || n == 0x3F || n == 0x3B || n == 0x3A

/-- Rewriting chain applied to one sentence fragment by _clean_text:
replace runs of characters outside the keep set by one space, remove the
ph333 noise token, remove word bounded single letters, collapse
whitespace runs and strip. -/
def cleanedFragment (p : List Char) : List Char :=
  stripPy (replaceRuns1 isSpaceChar (Char.ofNat 0x20)
    (removeSingleLetters (removePh333
      (replaceRuns1 (fun c => !isCleanKeepChar c) (Char.ofNat 0x20) p))))

/-- Body of the sentence loop of _clean_text: strip the fragment, skip
empty fragments and fragments without a CJK ideograph, apply the
rewriting chain, then accept the result when it is not garbled and
longer than eight characters. -/
def cleanSentenceOf (part : List Char) : Option (List Char) :=
  if stripPy part = [] then none
  else if (stripPy part).any isCJKChar then
    if _is_garbled_text (cleanedFragment (stripPy part)) = false ∧
       8 < (cleanedFragment (stripPy part)).length then
      some (cleanedFragment (stripPy part))
    else none
  else none

/-- The accepted sentences of _clean_text, in order. -/
def cleanSentences (t : List Char) : List (List Char) :=
  (splitSingle isSentencePunct (t.filter (fun c => !isCtlRemoveChar c))).filterMap
    cleanSentenceOf

/-- Embedding of _clean_text of the source: remove control characters,
split at sentence punctuation, filter and clean each sentence, join the
accepted sentences with a period and a space, enforce one trailing
period, collapse whitespace runs, collapse runs of two or more ASCII
punctuation characters into one period, and strip. -/
def _clean_text (t : List Char) : List Char :=
  if t = [] then []
  else
    let sentences := cleanSentences t
    let result := joinSep ". ".data sentences
    let result1 :=
      if result ≠ [] ∧ result.getLast? ≠ some (Char.ofNat 0x2E) then
        result ++ [Char.ofNat 0x2E]
      else result
    let result2 := replaceRuns1 isSpaceChar (Char.ofNat 0x20) result1
    let result3 := replaceRuns2 isPunctRunChar (Char.ofNat 0x2E) result2
    stripPy result3

/-- Modelled from the spec: the answers of the external compound
document collaborator (the olefile library, which is not part of the
repository) for one extraction run, per the collaborator contract of the
spec: availability of the library, validity of the container, presence
of the WordDocument stream, the bytes of that stream, and whether an
unexpected fault occurs inside the container tier (such a fault is
caught inside _extract_with_ole and yields the empty result). -/
structure OleEnv where
  available : Bool
  isOle : Bool
  hasWordDocument : Bool
  streamData : List Nat
  oleFault : Bool

/-- Modelled from the spec: the whole environment of one extraction run;
fault carries the message of an unexpected internal fault reaching the
outermost boundary handler of the source, with none meaning the normal
fault free run. -/
structure ExtractEnv where
  ole : OleEnv
  fault : Option (List Char)

/-- Embedding of _extract_with_ole of the source, with the external
container reader abstracted by OleEnv: every failure mode (library
unavailable, invalid container, unexpected fault) yields the empty
string; with a valid container the WordDocument stream is parsed when
present and the collected results are joined with newlines. -/
def _extract_with_ole (env : OleEnv) (_fileData : List Nat) : List Char :=
  if env.oleFault then []
  else if !env.available then []
  else if !env.isOle then []
  else if env.hasWordDocument then
    let text := _parse_stream_data env.streamData
    if text.isEmpty then joinSep [Char.ofNat 0x0A] []
    else joinSep [Char.ofNat 0x0A] [text]
  else joinSep [Char.ofNat 0x0A] []

/-- Embedding of _extract_with_binary of the source: parse the whole
raw input (the embedded parse never fails, so the except branch of the
source is unreachable). -/
def _extract_with_binary (fileData : List Nat) : List Char :=
  _parse_stream_data fileData

/-- The fixed no text found message of the source. -/
def noTextMsg : List Char := "未能从WPS文件中提取到有效文本内容".data

/-- The failure message head of the outermost boundary handler. -/
def failHead : List Char := "提取失败: ".data

/-- Embedding of extract_text_from_wps_stream of the source: an
unexpected internal fault is caught at the boundary and surfaced as a
descriptive message; otherwise the container tier is accepted when its
text is nonempty with stripped length above 20, the raw binary tier is
accepted when its text is nonempty with stripped length above 10, and
otherwise the fixed no text found message is returned. -/
def extract_text_from_wps_stream (env : ExtractEnv) (byteStream : List Nat) : List Char :=
  match env.fault with
  | some e => failHead ++ e
  | none =>
    let oleText := _extract_with_ole env.ole byteStream
    if oleText ≠ [] ∧ 20 < (stripPy oleText).length then _clean_text oleText
    else
      let binaryText := _extract_with_binary byteStream
      if binaryText ≠ [] ∧ 10 < (stripPy binaryText).length then _clean_text binaryText
      else noTextMsg

/-- Little endian 16 bit encoding of an ASCII range text, used to build
concrete container stream contents for the orchestrator theorems. -/
def asciiUtf16 (l : List Char) : List Nat :=
  match l with
  | [] => []
  | c :: r => c.toNat :: 0 :: asciiUtf16 r

/-- Collaborator environment of a run on a valid container whose
WordDocument stream holds the 20 character English sentence in the
primary 16 bit encoding. -/
def engEnv : ExtractEnv :=
  ⟨⟨true, true, true, asciiUtf16 "Hello world testing!".data, false⟩, none⟩

/-- Collaborator environment of a run on input that is not a valid
container, with no internal fault. -/
def rawEnv : ExtractEnv := ⟨⟨true, false, false, [], false⟩, none⟩

theorem stripPyNeNil {l : List Char} (h : 0 < (stripPy l).length) : l ≠ [] := by
  intro he
  subst he
  exact absurd h (by decide)

/-- A text that the garbled detector accepts contains a CJK ideograph:
in the accepting branch the non whitespace count is positive and the
ratio test guarantees a positive ideograph count. -/
theorem hasCJK_of_not_garbled (s : List Char) (h : _is_garbled_text s = false) :
    s.any isCJKChar = true := by
  unfold _is_garbled_text at h
  by_cases h3 : s.length < 3
  · rw [if_pos h3] at h
    cases h
  · rw [if_neg h3] at h
    by_cases h0 : nonWsCount s = 0
    · rw [if_pos h0] at h
      cases h
    · rw [if_neg h0] at h
      by_cases hr : cjkCount s * 5 < nonWsCount s * 2
      · rw [if_pos hr] at h
        cases h
      · have htot : 0 < nonWsCount s := Nat.pos_of_ne_zero h0
        have hcjk : 0 < cjkCount s := by omega
        rw [List.any_eq_true]
        have hmem := List.countP_pos_iff.mp hcjk
        obtain ⟨a, ha, hpa⟩ := hmem
        exact ⟨a, ha, hpa⟩

/-- C1: for every environment and every input byte sequence the
orchestrator returns one of the four possible strings of the source: the
descriptive failure message when an unexpected internal fault occurs,
the cleaned container tier text, the cleaned raw binary tier text, or
the fixed no text found message. The embedding is a total function, so a
string is returned for any byte input, including empty or adversarial
input, and never an exception. -/
theorem extract_total_contract (env : ExtractEnv) (data : List Nat) :
    (∃ e, env.fault = some e ∧
      extract_text_from_wps_stream env data = failHead ++ e) ∨
    extract_text_from_wps_stream env data =
      _clean_text (_extract_with_ole env.ole data) ∨
    extract_text_from_wps_stream env data =
      _clean_text (_extract_with_binary data) ∨
    extract_text_from_wps_stream env data = noTextMsg := by
  unfold extract_text_from_wps_stream
  cases h : env.fault with
  | some e => exact Or.inl ⟨e, rfl, rfl⟩
  | none =>
    by_cases h1 : _extract_with_ole env.ole data ≠ [] ∧
        20 < (stripPy (_extract_with_ole env.ole data)).length
    · rw [if_pos h1]
      exact Or.inr (Or.inl rfl)
    · rw [if_neg h1]
      by_cases h2 : _extract_with_binary data ≠ [] ∧
          10 < (stripPy (_extract_with_binary data)).length
      · rw [if_pos h2]
        exact Or.inr (Or.inr (Or.inl rfl))
      · rw [if_neg h2]
        exact Or.inr (Or.inr (Or.inr rfl))

/-- C3: the acceptance thresholds of the orchestrator are strict. In a
fault free run, container tier text whose stripped length exceeds 20 is
cleaned and returned; with stripped length at most 20 (in particular
exactly 20) the run falls through to the raw binary tier, which is
accepted exactly when its stripped length exceeds 10, and otherwise the
fixed no text found message results. -/
theorem extract_thresholds_strict (env : ExtractEnv) (data : List Nat)
    (hf : env.fault = none) :
    (20 < (stripPy (_extract_with_ole env.ole data)).length →
      extract_text_from_wps_stream env data =
        _clean_text (_extract_with_ole env.ole data)) ∧
    ((stripPy (_extract_with_ole env.ole data)).length ≤ 20 →
      ((10 < (stripPy (_extract_with_binary data)).length →
        extract_text_from_wps_stream env data =
          _clean_text (_extract_with_binary data)) ∧
       ((stripPy (_extract_with_binary data)).length ≤ 10 →
        extract_text_from_wps_stream env data = noTextMsg))) := by
  unfold extract_text_from_wps_stream
  rw [hf]
  constructor
  · intro h20
    rw [if_pos ⟨stripPyNeNil (by omega), h20⟩]
  · intro hle
    rw [if_neg (fun hc => by omega)]
    constructor
    · intro h10
      rw [if_pos ⟨stripPyNeNil (by omega), h10⟩]
    · intro hle10
      rw [if_neg (fun hc => by omega)]

/-- C3 witness: a container stream decoding to exactly 20 trimmed
characters of qualifying text is rejected and, with an empty raw input,
the run ends in the fixed no text found message. -/
theorem extract_thresholds_strict_witness :
    (stripPy (_extract_with_ole engEnv.ole [])).length = 20 ∧
    extract_text_from_wps_stream engEnv [] = noTextMsg := by
  constructor
  · decide
  · exact ((extract_thresholds_strict engEnv [] rfl).2 (by decide)).2 (by decide)

/-- C4: for a text of length at least three, with a positive non
whitespace count and with no other garbled rule triggered (noise symbol
count at most three and no corruption signature), the garbled detector
fires exactly when the ideograph count is strictly below two fifths of
the non whitespace count; and a text with no non whitespace character
is always classified garbled. In particular a ratio of exactly two
fifths is on the accepted side of the boundary. -/
theorem garbled_cjk_threshold (s : List Char) :
    (3 ≤ s.length → 0 < nonWsCount s → noiseCount s ≤ 3 →
      garbledPatOne s = false → hasAdjPair isNoiseChar s = false →
      garbledPatThree s = false → hasBlocklistChar s = false →
      (_is_garbled_text s = true ↔ cjkCount s * 5 < nonWsCount s * 2)) ∧
    (nonWsCount s = 0 → _is_garbled_text s = true) := by
  constructor
  · intro h3 htot hnoise hp1 hp2 hp3 hbl
    unfold _is_garbled_text
    rw [if_neg (by omega), if_neg (by omega)]
    by_cases hr : cjkCount s * 5 < nonWsCount s * 2
    · rw [if_pos hr]
      simp [hr]
    · rw [if_neg hr, if_neg (by omega), if_neg (by simp [hp1, hp2, hp3, hbl])]
      simp [hr]
  · intro h0
    unfold _is_garbled_text
    by_cases h3 : s.length < 3
    · rw [if_pos h3]
    · rw [if_neg h3, if_pos h0]

/-- C4 witness: two ideographs among five non whitespace characters are
exactly the two fifths boundary and the detector accepts the text. -/
theorem garbled_cjk_threshold_witness :
    _is_garbled_text "中中abc".data = false ∧
    cjkCount "中中abc".data * 5 = nonWsCount "中中abc".data * 2 := by
  constructor
  · have h := (garbled_cjk_threshold "中中abc".data).1 (by decide) (by decide)
      (by decide) (by decide) (by decide) (by decide) (by decide)
    revert h
    decide
  · decide

/-- C6: every sentence accepted into the final output of the Text
Cleaner contains at least one CJK ideograph and is not classified
garbled by the detector: the accepting branch requires the garbled test
to fail, and a text accepted by the detector necessarily has a positive
ideograph count. -/
theorem clean_sentences_invariant (t s : List Char) (hs : s ∈ cleanSentences t) :
    s.any isCJKChar = true ∧ _is_garbled_text s = false := by
  unfold cleanSentences at hs
  rw [List.mem_filterMap] at hs
  obtain ⟨part, -, hf⟩ := hs
  unfold cleanSentenceOf at hf
  split at hf
  · cases hf
  · split at hf
    · split at hf
      next hcond =>
        injection hf with hf
        subst hf
        exact ⟨hasCJK_of_not_garbled _ hcond.1, hcond.1⟩
      next => cases hf
    · cases hf

/-- C6 witness: the single sentence of a simple CJK input is in the
accepted sentence list, contains an ideograph and is not garbled. -/
theorem clean_sentences_invariant_witness :
    "深度学习模型需要大量数据".data.any isCJKChar = true ∧
    _is_garbled_text "深度学习模型需要大量数据".data = false := by
  exact clean_sentences_invariant "深度学习模型需要大量数据。".data
    "深度学习模型需要大量数据".data (by decide)

/-- C10: metadata rejection is substring based and case insensitive.
First part: any text containing the arial signature in any letter case
is classified metadata. Second part: consequently no paragraph
surviving the Meaningful-Text Filter is classified metadata or contains
the arial or the times new roman signature in any letter case, even a
paragraph that also holds CJK ideographs. -/
theorem metadata_substring_case_insensitive :
    (∀ q : List Char,
      isInfixOfL "arial".data (q.map Char.toLower) = true → _is_metadata q = true) ∧
    (∀ t p : List Char, p ∈ meaningfulParas t →
      _is_metadata p = false ∧
      isInfixOfL "arial".data (p.map Char.toLower) = false ∧
      isInfixOfL "times new roman".data (p.map Char.toLower) = false) := by
  have harial : ∀ q : List Char,
      isInfixOfL "arial".data (q.map Char.toLower) = true → _is_metadata q = true := by
    intro q h
    unfold _is_metadata
    rw [h]
    simp
  have htnr : ∀ q : List Char,
      isInfixOfL "times new roman".data (q.map Char.toLower) = true →
        _is_metadata q = true := by
    intro q h
    unfold _is_metadata
    rw [h]
    simp
  refine ⟨harial, ?_⟩
  intro t p hp
  unfold meaningfulParas at hp
  rw [List.mem_filterMap] at hp
  obtain ⟨para, -, hf⟩ := hp
  unfold meaningfulPara at hf
  split at hf
  · cases hf
  · split at hf
    · cases hf
    · split at hf
      · cases hf
      next hmeta =>
        split at hf
        · injection hf with hf
          subst hf
          have hm : _is_metadata (cleanParagraphOf (stripPy para)) = false := by
            simpa using hmeta
          refine ⟨hm, ?_, ?_⟩
          · cases hi : isInfixOfL "arial".data
                ((cleanParagraphOf (stripPy para)).map Char.toLower)
            · rfl
            · exact absurd (harial _ hi) (by simp [hm])
          · cases hi : isInfixOfL "times new roman".data
                ((cleanParagraphOf (stripPy para)).map Char.toLower)
            · rfl
            · exact absurd (htnr _ hi) (by simp [hm])
        · cases hf

/-- C10 witness: a text containing the arial signature in mixed case is
classified metadata, and the surviving CJK paragraph of the filter does
not contain the signatures. -/
theorem metadata_substring_case_insensitive_witness :
    _is_metadata "xxARIALyy中文".data = true ∧
    isInfixOfL "arial".data
      ("这是一个测试文档的正文内容".data.map Char.toLower) = false := by
  constructor
  · exact metadata_substring_case_insensitive.1 "xxARIALyy中文".data (by decide)
  · exact (metadata_substring_case_insensitive.2 "这是一个测试文档的正文内容".data
      "这是一个测试文档的正文内容".data (by decide)).2.1

/-- C2 counterexample: on the single undecodable byte 0xFF the utf-8
attempt of the source (errors ignored) produces the empty candidate
text, with no loss marker in it, while the loss marker decoder required
by the claim wording produces the replacement character; so undecodable
byte sequences are dropped, not replaced with a loss marker. -/
theorem decode_ignore_no_loss_marker :
    decodeUtf8 [255] = [] ∧
    decodeUtf8Replace [255] = [Char.ofNat 0xFFFD] ∧
    decodeUtf8 [255] ≠ decodeUtf8Replace [255] := by
  refine ⟨by decide, by decide, by decide⟩

/-- C2 amended: each of the three decode attempts is a total function
that never fails (undecodable byte sequences are silently dropped by the
ignore error handler, not replaced with a marker and not thrown); all
three attempts run unconditionally and the parse result is exactly the
newline join of the surviving nonempty filtered candidates in the fixed
order utf-16le, utf-8, gbk; the parse result is empty exactly when all
three candidates are empty. -/
theorem parse_runs_all_three_decodes (data : List Nat) :
    _parse_stream_data data =
      joinSep [Char.ofNat 0x0A]
        (([_extract_meaningful_text (decodeUtf16le data),
           _extract_meaningful_text (decodeUtf8 data),
           _extract_meaningful_text (decodeGbk data)]).filter
          (fun s => !s.isEmpty)) ∧
    (_parse_stream_data data = [] ↔
      (_extract_meaningful_text (decodeUtf16le data) = [] ∧
       _extract_meaningful_text (decodeUtf8 data) = [] ∧
       _extract_meaningful_text (decodeGbk data) = [])) := by
  unfold _parse_stream_data
  generalize _extract_meaningful_text (decodeUtf16le data) = t1
  generalize _extract_meaningful_text (decodeUtf8 data) = t2
  generalize _extract_meaningful_text (decodeGbk data) = t3
  cases t1 <;> cases t2 <;> cases t3 <;> simp [joinSep, List.filter]

/-- C5 counterexample: the Text Cleaner is not idempotent. On this
input the first application collapses the comma run into a period,
which creates new sentence boundaries; the second application splits
there, both halves fail the strict eight character minimum, and the
result collapses to the empty string. -/
theorem clean_text_not_idempotent :
    _clean_text (_clean_text "中文中文中文,,,中文中文中文".data) ≠
      _clean_text "中文中文中文,,,中文中文中文".data := by
  decide

/-- C5 amended: the Text Cleaner is not idempotent on all inputs,
because the final punctuation run collapse can introduce new sentence
boundaries that a second application splits on; it is idempotent on
typical cleaned outputs whose sentences survive re-splitting, such as
the end to end example text, where a second application reproduces the
first result exactly. -/
theorem clean_text_idempotent_on_example :
    _clean_text (_clean_text "人工智能技术正在快速发展。机器学习是其核心驱动力。".data) =
      _clean_text "人工智能技术正在快速发展。机器学习是其核心驱动力。".data := by
  decide

/-- C7: the example sentence pair survives the Meaningful-Text Filter
unchanged, its trimmed length exceeds the container acceptance
threshold of 20, and the Text Cleaner turns it into exactly the
normalized result with the period space join and the enforced trailing
period. -/
theorem end_to_end_example_cleaned :
    _extract_meaningful_text "人工智能技术正在快速发展。机器学习是其核心驱动力。".data =
      "人工智能技术正在快速发展。机器学习是其核心驱动力。".data ∧
    20 < (stripPy "人工智能技术正在快速发展。机器学习是其核心驱动力。".data).length ∧
    _clean_text "人工智能技术正在快速发展。机器学习是其核心驱动力。".data =
      "人工智能技术正在快速发展. 机器学习是其核心驱动力.".data := by
  refine ⟨by decide, by decide, by decide⟩

/-- C8: the paragraph equal to the Times New Roman font name matches a
metadata pattern and is dropped by the Meaningful-Text Filter, while
the CJK example paragraph matches no metadata pattern and survives the
filter unchanged. -/
theorem metadata_filter_example :
    _extract_meaningful_text "Times New Roman".data = [] ∧
    _is_metadata "Times New Roman".data = true ∧
    _extract_meaningful_text "这是一个测试文档的正文内容".data =
      "这是一个测试文档的正文内容".data ∧
    _is_metadata "这是一个测试文档的正文内容".data = false := by
  refine ⟨by decide, by decide, by decide, by decide⟩

/-- C9: on one hundred zero bytes, which are not a valid container, the
container tier yields the empty string, the raw binary parse of the
input yields the empty string (no decoding yields qualifying text), and
the orchestrator returns exactly the fixed no text found message. -/
theorem zero_bytes_no_text :
    _extract_with_ole rawEnv.ole (List.replicate 100 0) = [] ∧
    _parse_stream_data (List.replicate 100 0) = [] ∧
    extract_text_from_wps_stream rawEnv (List.replicate 100 0) = noTextMsg := by
  refine ⟨by decide, by decide, by decide⟩
